import Mathlib

/-!
Shallow embedding of the cooldown tracking and notification scheduling
engine of the mon-far-app repository.

The source of truth is the notification storage module (the multi-address
version): `saveUserVote`, `removeVoteRecord`, `scheduleCooldownNotification`,
`rescheduleAllNotifications`, `sendCooldownNotification`,
`removeNotificationToken`, `restoreAllNotifications`, `migrateLegacyData`,
`getVoteKey`, together with `sendFrameNotification` from `src/lib/notifs.ts`.

Modelling conventions:
- Unix timestamps and fids are `Nat` (the source uses integer seconds).
- JavaScript `x || d` on numbers is modelled on `Option Nat` with `some 0`
  falsy; on strings with the empty string falsy.
- The database adapter is modelled as a list of `NotificationToken` rows
  keyed by `fid` (`storeGet` / `storeSave` / `storeRemove` mirror the
  in-memory adapter: replace-in-place or append, preserving order).
- The module-level `scheduledNotifications` map (fid -> voteKey -> timeout)
  is flattened to a list of `TimerEntry`; `clearTimeout` is modelled by
  adding the timer id to a `cancelled` set, and `setTimeout` by drawing a
  fresh id from `nextId`.  A registry entry is a *live* timer iff its id
  has not been cancelled.
- Launching the asynchronous `sendCooldownNotification` is recorded as an
  `Event.fire` value; the body of `sendCooldownNotification` itself (which
  runs against transport outcomes) is `sendCooldownNotificationStep`.
-/

namespace MonFar

/-- A vote record, as in the `VoteRecord` interface of the db adapter. -/
structure VoteRecord where
  address : String
  network : String
  voteTime : Nat
  cooldownEndTime : Nat
deriving Repr, DecidableEq

/-- A persisted per-user row, as in the `NotificationToken` interface
(`address`/`lastVoteTime` are the deprecated legacy fields). -/
structure NotificationToken where
  fid : Nat
  token : String
  url : String
  address : Option String := none
  lastVoteTime : Option Nat := none
  votes : Option (List VoteRecord) := none
deriving Repr, DecidableEq

/-- One entry of the flattened `scheduledNotifications` registry. -/
structure TimerEntry where
  fid : Nat
  voteKey : String
  timerId : Nat
deriving Repr, DecidableEq

/-- The mutable state of the module: the database rows, the timer registry
entries, the set of cancelled timeout ids, and the fresh-id supply. -/
structure SysState where
  store : List NotificationToken
  timers : List TimerEntry
  cancelled : List Nat
  nextId : Nat
deriving Repr, DecidableEq

/-- An invocation of the asynchronous `sendCooldownNotification`
(fid, address, network, cooldownEndTime). -/
inductive Event where
  | fire : Nat → String → String → Nat → Event
deriving Repr, DecidableEq

/-- Outcome reported by the external notification transport. -/
inductive TransportOutcome where
  | delivered
  | invalidTarget
  | throttled
  | transportError
deriving Repr, DecidableEq

/-- Result of `sendFrameNotification`, as in `src/lib/notifs.ts`. -/
inductive SendResult where
  | success
  | noToken
  | rateLimit
  | sendError
deriving Repr, DecidableEq

/-- Summary returned by `restoreAllNotifications`. -/
structure RestoreResult where
  restored : Nat
  errors : Nat
  cleaned : Nat
deriving Repr, DecidableEq

/-- `adapter.getNotificationToken`: first row with the given fid. -/
def storeGet (store : List NotificationToken) (fid : Nat) : Option NotificationToken :=
  store.find? (fun u => u.fid == fid)

/-- `adapter.saveNotificationToken`: replace the row with this fid in
place, or append a new row. -/
def storeSave (store : List NotificationToken) (t : NotificationToken) : List NotificationToken :=
  if store.any (fun u => u.fid == t.fid) then
    store.map (fun u => if u.fid == t.fid then t else u)
  else store ++ [t]

/-- `adapter.removeNotificationToken`: drop the row with this fid. -/
def storeRemove (store : List NotificationToken) (fid : Nat) : List NotificationToken :=
  store.filter (fun u => u.fid != fid)

/-- The per-vote normalisation inside `migrateLegacyData`:
`network: vote.network || 'unknown'`. -/
def migrateNet (v : VoteRecord) : VoteRecord :=
  if v.network == "" then { v with network := "unknown" } else v

/-- The legacy branch of `migrateLegacyData`: materialise the deprecated
`(address, lastVoteTime)` pair as a one-element votes array (JS truthiness:
empty address or zero time fails the guard). -/
def migrateLegacyFallback (token : NotificationToken) : NotificationToken :=
  match token.address, token.lastVoteTime with
  | some a, some lvt =>
    if a == "" || lvt == 0 then token
    else { token with votes := some [⟨a, "unknown", lvt, lvt + 24 * 60 * 60⟩] }
  | _, _ => token

/-- `migrateLegacyData` from the notification storage module. -/
def migrateLegacyData (token : NotificationToken) : NotificationToken :=
  match token.votes with
  | some vs =>
    if vs.length > 0 then { token with votes := some (vs.map migrateNet) }
    else migrateLegacyFallback token
  | none => migrateLegacyFallback token

/-- `toLowerCase`, as a structural map over the characters (extensionally
`String.toLower`, but reducible by the kernel). -/
def strLower (s : String) : String :=
  String.mk (s.data.map Char.toLower)

/-- `slice(0, n)`, as a structural take of the characters. -/
def strTake (s : String) (n : Nat) : String :=
  String.mk (s.data.take n)

/-- `getVoteKey`: the registry key for an address+network combination. -/
def getVoteKey (address network : String) : String :=
  strLower address ++ ":" ++ network

/-- Registry entries stored under a given (fid, voteKey). -/
def entriesFor (ts : List TimerEntry) (fid : Nat) (key : String) : List TimerEntry :=
  ts.filter (fun e => e.fid == fid && e.voteKey == key)

/-- Live timers for a key: registry entries whose timeout id has not been
cancelled. -/
def liveEntriesFor (s : SysState) (fid : Nat) (key : String) : List TimerEntry :=
  (entriesFor s.timers fid key).filter (fun e => !(s.cancelled.contains e.timerId))

/-- `fidNotifications.set(voteKey, timeoutId)`: replace the entry for this
(fid, voteKey) in place, or append it. -/
def setEntry (ts : List TimerEntry) (fid : Nat) (key : String) (id : Nat) : List TimerEntry :=
  if ts.any (fun e => e.fid == fid && e.voteKey == key) then
    ts.map (fun e => if e.fid == fid && e.voteKey == key then ⟨fid, key, id⟩ else e)
  else ts ++ [⟨fid, key, id⟩]

/-- `scheduleCooldownNotification`: cancel any existing timeout for the
key; if the cooldown is already over fire immediately (registering
nothing), otherwise register a fresh timeout under the key. -/
def scheduleCooldownNotification (s : SysState) (fid : Nat) (address network : String)
    (voteTime cooldownEndTime now : Nat) : SysState × List Event :=
  let voteKey := getVoteKey address network
  let cancelled1 :=
    match s.timers.find? (fun e => e.fid == fid && e.voteKey == voteKey) with
    | some e => e.timerId :: s.cancelled
    | none => s.cancelled
  if cooldownEndTime ≤ now then
    ({ s with cancelled := cancelled1 }, [Event.fire fid address network cooldownEndTime])
  else
    ({ s with
        timers := setEntry s.timers fid voteKey s.nextId
        cancelled := cancelled1
        nextId := s.nextId + 1 }, [])

/-- The body of the `setTimeout` callback armed by
`scheduleCooldownNotification`: launch `sendCooldownNotification`, then
delete the key from the registry. -/
def fireTimer (s : SysState) (fid : Nat) (address network : String)
    (cooldownEndTime : Nat) : SysState × List Event :=
  let voteKey := getVoteKey address network
  ({ s with timers := s.timers.filter (fun e => !(e.fid == fid && e.voteKey == voteKey)) },
   [Event.fire fid address network cooldownEndTime])

/-- `vote.network || 'unknown'` as used inside the reschedule loop. -/
def reschedNet (vote : VoteRecord) : String :=
  if vote.network == "" then "unknown" else vote.network

/-- The loop body of `rescheduleAllNotifications` for one vote record. -/
def reschedStep (fid now : Nat) (acc : SysState × List Event) (vote : VoteRecord) :
    SysState × List Event :=
  if now < vote.cooldownEndTime then
    let r := scheduleCooldownNotification acc.1 fid vote.address (reschedNet vote)
      vote.voteTime vote.cooldownEndTime now
    (r.1, acc.2 ++ r.2)
  else
    (acc.1, acc.2 ++ [Event.fire fid vote.address (reschedNet vote) vote.cooldownEndTime])

/-- `rescheduleAllNotifications`: schedule every vote still in cooldown,
fire immediately for every vote whose cooldown already ended. -/
def rescheduleAllNotifications (s : SysState) (fid : Nat) (votes : List VoteRecord)
    (now : Nat) : SysState × List Event :=
  votes.foldl (reschedStep fid now) (s, [])

/-- `blockTimestamp || voteTime` (JS: `some 0` is falsy). -/
def actualVoteTimeOf (blockTimestamp : Option Nat) (voteTime : Nat) : Nat :=
  match blockTimestamp with
  | some b => if b == 0 then voteTime else b
  | none => voteTime

/-- `network || 'unknown'` (JS: the empty string is falsy). -/
def voteNetworkOf (network : Option String) : String :=
  match network with
  | some n => if n == "" then "unknown" else n
  | none => "unknown"

/-- The record `saveUserVote` builds for the incoming vote. -/
def newVoteOf (address : String) (voteTime : Nat) (blockTimestamp : Option Nat)
    (network : Option String) : VoteRecord :=
  let avt := actualVoteTimeOf blockTimestamp voteTime
  ⟨address, voteNetworkOf network, avt, avt + 24 * 60 * 60⟩

/-- The composite-key match used by `saveUserVote` and `removeVoteRecord`:
address compared case-insensitively, network compared exactly. -/
def keyMatch (address network : String) (v : VoteRecord) : Bool :=
  strLower v.address == strLower address && v.network == network

/-- `findIndex` / overwrite-or-append, as in the merge of `saveUserVote`. -/
def mergeByKey (l : List α) (p : α → Bool) (nv : α) : List α :=
  match l.findIdx? p with
  | some i => l.set i nv
  | none => l ++ [nv]

/-- `saveUserVote`: silently drop if the fid has no row; otherwise prune
expired pre-existing votes, merge the new vote by composite key, persist,
then (re)schedule notifications. -/
def saveUserVote (s : SysState) (fid : Nat) (address : String) (voteTime : Nat)
    (blockTimestamp : Option Nat) (network : Option String) (now : Nat) :
    SysState × List Event :=
  match storeGet s.store fid with
  | none => (s, [])
  | some tokenData =>
    let actualVoteTime := actualVoteTimeOf blockTimestamp voteTime
    let voteNetwork := voteNetworkOf network
    let migratedToken := migrateLegacyData tokenData
    let cooldownEndTime := actualVoteTime + 24 * 60 * 60
    let newVote : VoteRecord := ⟨address, voteNetwork, actualVoteTime, cooldownEndTime⟩
    let existingVotes := migratedToken.votes.getD []
    let activeVotes := existingVotes.filter (fun v => now < v.cooldownEndTime)
    let updatedVotes := mergeByKey activeVotes (keyMatch address voteNetwork) newVote
    let s1 := { s with store := storeSave s.store { migratedToken with votes := some updatedVotes } }
    let hasScheduled := s1.timers.any (fun e => e.fid == fid)
    let activeVotesToRestore := updatedVotes.filter (fun v => now < v.cooldownEndTime)
    let r1 :=
      if !hasScheduled && activeVotesToRestore.length > 0 then
        rescheduleAllNotifications s1 fid activeVotesToRestore now
      else (s1, [])
    let r2 := scheduleCooldownNotification r1.1 fid address voteNetwork actualVoteTime
      cooldownEndTime now
    let r3 := rescheduleAllNotifications r2.1 fid updatedVotes now
    (r3.1, r1.2 ++ r2.2 ++ r3.2)

/-- `removeVoteRecord`: drop the records matching the composite key from
the row, writing back only when something was removed. -/
def removeVoteRecord (s : SysState) (fid : Nat) (address network : String) : SysState :=
  match storeGet s.store fid with
  | none => s
  | some tokenData =>
    let migrated := migrateLegacyData tokenData
    let existingVotes := migrated.votes.getD []
    let filtered := existingVotes.filter (fun v => !(keyMatch address network v))
    if filtered.length < existingVotes.length then
      { s with store := storeSave s.store { migrated with votes := some filtered } }
    else s

/-- `removeNotificationToken`: delete the row and cancel and remove every
scheduled timeout of the fid. -/
def removeNotificationToken (s : SysState) (fid : Nat) : SysState :=
  { s with
    store := storeRemove s.store fid
    timers := s.timers.filter (fun e => e.fid != fid)
    cancelled := ((s.timers.filter (fun e => e.fid == fid)).map (fun e => e.timerId))
      ++ s.cancelled }

/-- `sendFrameNotification` from `src/lib/notifs.ts`, at the level of
transport outcomes: invalid tokens delete the subscription and all timers,
throttling maps to `rateLimit`, success to `success`. -/
def sendFrameNotification (s : SysState) (fid : Nat) (outcome : TransportOutcome) :
    SysState × SendResult :=
  match storeGet s.store fid with
  | none => (s, SendResult.noToken)
  | some d =>
    if d.token == "" || d.url == "" then (s, SendResult.noToken)
    else
      match outcome with
      | TransportOutcome.invalidTarget => (removeNotificationToken s fid, SendResult.noToken)
      | TransportOutcome.throttled => (s, SendResult.rateLimit)
      | TransportOutcome.delivered => (s, SendResult.success)
      | TransportOutcome.transportError => (s, SendResult.sendError)

/-- The stable notification id built by `sendCooldownNotification`. -/
def notificationId (fid : Nat) (address network : String) (cooldownEndTime : Nat) : String :=
  "cooldown-ended-" ++ toString fid ++ "-" ++ strLower (strTake address 8) ++ "-"
    ++ strLower (strTake network 6) ++ "-" ++ toString cooldownEndTime

/-- The body of `sendCooldownNotification`: re-read the row, build the
stable id, call the transport, and on success remove the vote record.
Returns the id sent to the transport (`none` when no send happened). -/
def sendCooldownNotificationStep (s : SysState) (fid : Nat) (address network : String)
    (cooldownEndTime : Nat) (outcome : TransportOutcome) : SysState × Option String :=
  match storeGet s.store fid with
  | none => (s, none)
  | some d =>
    if d.token == "" || d.url == "" then (s, none)
    else
      let nid := notificationId fid address network cooldownEndTime
      let r := sendFrameNotification s fid outcome
      if r.2 == SendResult.success then (removeVoteRecord r.1 fid address network, some nid)
      else (r.1, some nid)

/-- The state after the batch prune of one row: when expired votes exist,
persist the row with only the active votes retained. -/
def restoreSaved (acc : SysState × Nat × Nat) (tok : NotificationToken)
    (activeVotes : List VoteRecord) (expiredCount : Nat) : SysState :=
  if expiredCount > 0 then
    { acc.1 with store := storeSave acc.1.store { migrateLegacyData tok with
        votes := some activeVotes } }
  else acc.1

/-- The nonempty-votes branch of the reconciliation loop body: prune, then
re-arm all active votes when the fid has no registry entry. -/
def processActive (now : Nat) (acc : SysState × Nat × Nat) (tok : NotificationToken)
    (activeVotes : List VoteRecord) (expiredCount : Nat) : SysState × Nat × Nat :=
  if activeVotes.length > 0 then
    if (restoreSaved acc tok activeVotes expiredCount).timers.any (fun e => e.fid == tok.fid) then
      (restoreSaved acc tok activeVotes expiredCount, acc.2.1, acc.2.2 + expiredCount)
    else
      ((rescheduleAllNotifications (restoreSaved acc tok activeVotes expiredCount)
          tok.fid activeVotes now).1, acc.2.1 + 1, acc.2.2 + expiredCount)
  else (restoreSaved acc tok activeVotes expiredCount, acc.2.1, acc.2.2 + expiredCount)

/-- The loop body of `restoreAllNotifications` for one row of the
snapshot: prune expired votes (counting them), and re-arm the active ones
when the fid has no registry entry (counting the user). -/
def processRestoreToken (now : Nat) (acc : SysState × Nat × Nat) (tok : NotificationToken) :
    SysState × Nat × Nat :=
  match (migrateLegacyData tok).votes with
  | none => acc
  | some vs =>
    if vs.length > 0 then
      processActive now acc tok (vs.filter (fun v => now < v.cooldownEndTime))
        (vs.length - (vs.filter (fun v => now < v.cooldownEndTime)).length)
    else acc

/-- `restoreAllNotifications`: scan a snapshot of all rows, pruning
expired votes and re-arming timers; the pure model never throws, so the
error counter is zero. -/
def restoreAllNotifications (s : SysState) (now : Nat) : SysState × RestoreResult :=
  let r := s.store.foldl (processRestoreToken now) (s, 0, 0)
  (r.1, ⟨r.2.1, 0, r.2.2⟩)

/-! ### Generic helper lemmas -/

/-- `find?` returns the head of the filtered list. -/
theorem find?_eq_filter_head? (p : α → Bool) (l : List α) :
    l.find? p = (l.filter p).head? := by
  induction l with
  | nil => rfl
  | cons x xs ih =>
    by_cases h : p x
    · simp [List.find?_cons, List.filter_cons, h]
    · rw [List.find?_cons, List.filter_cons]
      simp only [h, Bool.false_eq_true, if_false, ite_false]
      exact ih

/-- `find?` over the replace-in-place map used by `storeSave`, looked up
at the replaced fid: yields the new row as soon as any row matched. -/
theorem find?_map_replace_self (st : List NotificationToken) (t : NotificationToken) :
    (st.map (fun u => if u.fid == t.fid then t else u)).find? (fun u => u.fid == t.fid)
      = if st.any (fun u => u.fid == t.fid) then some t else none := by
  induction st with
  | nil => rfl
  | cons x xs ih =>
    by_cases hx : x.fid == t.fid
    · rw [List.map_cons, if_pos hx, List.find?_cons]
      simp [List.any_cons, hx]
    · rw [List.map_cons, if_neg hx, List.find?_cons]
      simp only [List.any_cons]
      have hx0 : (x.fid == t.fid) = false := by simpa using hx
      simp only [hx0, Bool.false_eq_true, if_false, Bool.false_or]
      simpa using ih

/-- `find?` over the replace-in-place map used by `storeSave`, looked up
at a different fid: unchanged. -/
theorem find?_map_replace_other (st : List NotificationToken) (t : NotificationToken)
    (g : Nat) (hg : g ≠ t.fid) :
    (st.map (fun u => if u.fid == t.fid then t else u)).find? (fun u => u.fid == g)
      = st.find? (fun u => u.fid == g) := by
  induction st with
  | nil => rfl
  | cons x xs ih =>
    by_cases hx : x.fid == t.fid
    · have hxg : (x.fid == g) = false := by
        have : x.fid = t.fid := by simpa using hx
        exact beq_false_of_ne (by omega)
      have htg : (t.fid == g) = false := beq_false_of_ne (by omega)
      simp only [List.map_cons, hx, if_true, List.find?_cons, htg, hxg,
        Bool.false_eq_true, if_false]
      exact ih
    · simp only [List.map_cons, hx, Bool.false_eq_true, if_false, List.find?_cons]
      by_cases hxg : x.fid == g
      · simp [hxg]
      · simp only [hxg, Bool.false_eq_true, if_false]
        exact ih

/-- Appending an element that fails the predicate does not change `find?`. -/
theorem find?_append_single_false (l : List α) (p : α → Bool) (a : α) (ha : p a = false) :
    (l ++ [a]).find? p = l.find? p := by
  induction l with
  | nil => simp [List.find?, ha]
  | cons x xs ih =>
    by_cases hx : p x
    · simp [List.find?_cons, hx]
    · simp only [List.cons_append, List.find?_cons, hx, Bool.false_eq_true, if_false]
      exact ih

/-- Appending after a failed search finds the appended element when it
matches. -/
theorem find?_append_single_true (l : List α) (p : α → Bool) (a : α)
    (hl : l.find? p = none) (ha : p a = true) : (l ++ [a]).find? p = some a := by
  induction l with
  | nil => simp [List.find?, ha]
  | cons x xs ih =>
    rw [List.find?_cons] at hl
    by_cases hx : p x
    · simp [hx] at hl
    · simp only [List.cons_append, List.find?_cons, hx, Bool.false_eq_true, if_false]
      exact ih (by simpa [hx] using hl)

/-- Rows of a saved store are the new row or old rows. -/
theorem mem_storeSave {st : List NotificationToken} {t u : NotificationToken}
    (h : u ∈ storeSave st t) : u = t ∨ (u ∈ st ∧ u.fid ≠ t.fid) := by
  unfold storeSave at h
  split at h
  · rcases List.mem_map.mp h with ⟨w, hw, hwe⟩
    by_cases hf : w.fid == t.fid
    · simp [hf] at hwe
      exact Or.inl hwe.symm
    · simp [hf] at hwe
      refine Or.inr ⟨hwe ▸ hw, ?_⟩
      rw [← hwe]
      simpa using hf
  · rcases List.mem_append.mp h with hl | hr
    · refine Or.inr ⟨hl, ?_⟩
      next hany =>
      have := List.any_eq_false.mp (Bool.eq_false_iff.mpr hany) u hl
      simpa using this
    · exact Or.inl (List.mem_singleton.mp hr)

/-- Reading back the fid just saved yields the saved row. -/
theorem storeGet_storeSave_self (st : List NotificationToken) (t : NotificationToken) :
    storeGet (storeSave st t) t.fid = some t := by
  unfold storeGet storeSave
  by_cases hany : st.any (fun u => u.fid == t.fid)
  · rw [if_pos hany, find?_map_replace_self, if_pos hany]
  · rw [if_neg hany]
    apply find?_append_single_true
    · rw [List.find?_eq_none]
      intro u hu
      exact fun hc => hany (List.any_eq_true.mpr ⟨u, hu, hc⟩)
    · simp

/-- Saving a row leaves every other fid unchanged. -/
theorem storeGet_storeSave_other (st : List NotificationToken) (t : NotificationToken)
    (g : Nat) (hg : g ≠ t.fid) : storeGet (storeSave st t) g = storeGet st g := by
  unfold storeGet storeSave
  by_cases hany : st.any (fun u => u.fid == t.fid)
  · rw [if_pos hany, find?_map_replace_other st t g hg]
  · rw [if_neg hany, find?_append_single_false]
    exact beq_false_of_ne (by omega)

/-- Removing a fid makes it unreadable. -/
theorem storeGet_storeRemove_self (st : List NotificationToken) (fid : Nat) :
    storeGet (storeRemove st fid) fid = none := by
  unfold storeGet storeRemove
  rw [List.find?_eq_none]
  intro u hu
  have := (List.mem_filter.mp hu).2
  simpa using this

/-! ### Migration lemmas -/

/-- `migrateNet` is the identity on records with a nonempty network. -/
theorem map_migrateNet_eq_self (l : List VoteRecord) (hl : ∀ v ∈ l, v.network ≠ "") :
    l.map migrateNet = l := by
  induction l with
  | nil => rfl
  | cons x xs ih =>
    rw [List.map_cons, ih (fun v hv => hl v (List.mem_cons_of_mem x hv))]
    unfold migrateNet
    rw [if_neg]
    simpa using hl x (List.mem_cons_self x xs)

/-- A row with a nonempty votes array whose networks are all nonempty is a
fixed point of the legacy migration. -/
theorem migrateLegacyData_eq_self (t : NotificationToken) (vs : List VoteRecord)
    (hv : t.votes = some vs) (hne : vs ≠ [])
    (hnet : ∀ v ∈ vs, v.network ≠ "") : migrateLegacyData t = t := by
  obtain ⟨f, tok, u, a, lvt, votes⟩ := t
  simp only [NotificationToken.mk.injEq] at hv ⊢
  subst hv
  unfold migrateLegacyData
  simp only
  rw [if_pos (List.length_pos.mpr hne), map_migrateNet_eq_self vs hnet]

/-- Migration never leaves an empty network on a migrated vote record. -/
theorem migrate_votes_network_ne (t : NotificationToken)
    (h0 : t.votes.getD [] = []) :
    ∀ v ∈ (migrateLegacyData t).votes.getD [], v.network ≠ "" := by
  intro v hv
  unfold migrateLegacyData at hv
  split at hv
  next vs heq =>
    split at hv
    next hlen =>
      exfalso
      rw [heq] at h0
      simp only [Option.getD_some] at h0
      rw [h0] at hlen
      simp at hlen
    next =>
      unfold migrateLegacyFallback at hv
      split at hv
      next a lvt _ _ =>
        split at hv
        · rw [h0] at hv
          simp at hv
        · simp only [Option.getD_some, List.mem_singleton] at hv
          rw [hv]
          simp
      next =>
        rw [h0] at hv
        simp at hv
  next heq =>
    unfold migrateLegacyFallback at hv
    split at hv
    next a lvt _ _ =>
      split at hv
      · rw [h0] at hv
        simp at hv
      · simp only [Option.getD_some, List.mem_singleton] at hv
        rw [hv]
        simp
    next =>
      rw [h0] at hv
      simp at hv

/-- Every vote record of a migrated row has a nonempty network. -/
theorem migrate_votes_network_ne_all (t : NotificationToken) :
    ∀ v ∈ (migrateLegacyData t).votes.getD [], v.network ≠ "" := by
  intro v hv
  by_cases h0 : t.votes.getD [] = []
  · exact migrate_votes_network_ne t h0 v hv
  · rcases hvs : t.votes with _ | vs
    · rw [hvs] at h0
      simp at h0
    · rw [hvs] at h0
      simp only [Option.getD_some] at h0
      unfold migrateLegacyData at hv
      rw [hvs] at hv
      simp only [List.length_pos.mpr h0, if_pos, Option.getD_some] at hv
      rcases List.mem_map.mp hv with ⟨w, _, hwe⟩
      unfold migrateNet at hwe
      subst hwe
      split
      · simp
      next hw => simpa using hw

/-- Migration preserves the identity and capability fields of a row. -/
theorem migrate_preserves_fields (t : NotificationToken) :
    (migrateLegacyData t).fid = t.fid ∧ (migrateLegacyData t).token = t.token ∧
      (migrateLegacyData t).url = t.url := by
  unfold migrateLegacyData migrateLegacyFallback
  repeat' split
  all_goals simp

/-! ### Merge lemmas -/

/-- Looking up the merge key after `mergeByKey` finds the new element. -/
theorem find?_mergeByKey (p : α → Bool) (nv : α) (hp : p nv = true) :
    ∀ l : List α, (mergeByKey l p nv).find? p = some nv := by
  intro l
  induction l with
  | nil => simp [mergeByKey, List.find?, hp]
  | cons x xs ih =>
    unfold mergeByKey
    rw [List.findIdx?_cons]
    by_cases hx : p x
    · rw [if_pos hx]
      simp only [List.set_cons_zero, List.find?_cons, hp]
    · rw [if_neg hx, List.findIdx?_succ]
      unfold mergeByKey at ih
      cases h : xs.findIdx? p with
      | none =>
        rw [h] at ih
        have hx0 : p x = false := by simpa using hx
        show List.find? p (x :: (xs ++ [nv])) = some nv
        rw [List.find?_cons, hx0]
        exact ih
      | some j =>
        rw [h] at ih
        have hx0 : p x = false := by simpa using hx
        show List.find? p ((x :: xs).set (j + 1) nv) = some nv
        rw [List.set_cons_succ, List.find?_cons, hx0]
        exact ih

/-- Elements of a merge are the new element or old elements. -/
theorem mem_mergeByKey {l : List α} {p : α → Bool} {nv v : α}
    (h : v ∈ mergeByKey l p nv) : v = nv ∨ v ∈ l := by
  unfold mergeByKey at h
  split at h
  · rcases List.mem_or_eq_of_mem_set h with h1 | h2
    · exact Or.inr h1
    · exact Or.inl h2
  · rcases List.mem_append.mp h with h1 | h2
    · exact Or.inr h1
    · exact Or.inl (List.mem_singleton.mp h2)

/-- The new element is a member of the merge. -/
theorem nv_mem_mergeByKey (p : α → Bool) (nv : α) (hp : p nv = true) (l : List α) :
    nv ∈ mergeByKey l p nv :=
  List.mem_of_find?_eq_some (find?_mergeByKey p nv hp l)

/-! ### Scheduling preservation lemmas -/

/-- Scheduling does not touch the database. -/
theorem schedule_store (s : SysState) (fid : Nat) (address network : String)
    (voteTime cooldownEndTime now : Nat) :
    (scheduleCooldownNotification s fid address network voteTime cooldownEndTime now).1.store
      = s.store := by
  unfold scheduleCooldownNotification
  split <;> rfl

/-- Scheduling does not reset the fresh-id supply. -/
theorem schedule_nextId_mono (s : SysState) (fid : Nat) (address network : String)
    (voteTime cooldownEndTime now : Nat) :
    s.nextId ≤
      (scheduleCooldownNotification s fid address network voteTime cooldownEndTime now).1.nextId := by
  unfold scheduleCooldownNotification
  split
  · exact Nat.le_refl _
  · exact Nat.le_succ _

/-- Scheduling only adds to the cancelled set. -/
theorem schedule_cancelled_mono (s : SysState) (fid : Nat) (address network : String)
    (voteTime cooldownEndTime now : Nat) (c : Nat) (hc : c ∈ s.cancelled) :
    c ∈ (scheduleCooldownNotification s fid address network voteTime cooldownEndTime now).1.cancelled := by
  unfold scheduleCooldownNotification
  split <;> (simp only; split <;> simp_all)

/-- The reschedule loop does not touch the database. -/
theorem reschedStep_store (fid now : Nat) (acc : SysState × List Event) (vote : VoteRecord) :
    (reschedStep fid now acc vote).1.store = acc.1.store := by
  unfold reschedStep
  split
  · exact schedule_store acc.1 fid vote.address (reschedNet vote) vote.voteTime
      vote.cooldownEndTime now
  · rfl

/-- The reschedule pass does not touch the database. -/
theorem reschedule_store (fid now : Nat) (votes : List VoteRecord) :
    ∀ acc : SysState × List Event,
      (votes.foldl (reschedStep fid now) acc).1.store = acc.1.store := by
  induction votes with
  | nil => intro acc; rfl
  | cons v vs ih =>
    intro acc
    rw [List.foldl_cons, ih (reschedStep fid now acc v), reschedStep_store]

/-- `rescheduleAllNotifications` does not touch the database. -/
theorem rescheduleAll_store (s : SysState) (fid : Nat) (votes : List VoteRecord) (now : Nat) :
    (rescheduleAllNotifications s fid votes now).1.store = s.store :=
  reschedule_store fid now votes (s, [])

/-- A reschedule pass over votes whose cooldowns all ended changes no
state (it only fires notifications). -/
theorem reschedule_expired_state (fid now : Nat) (votes : List VoteRecord)
    (hv : ∀ v ∈ votes, v.cooldownEndTime ≤ now) :
    ∀ acc : SysState × List Event, (votes.foldl (reschedStep fid now) acc).1 = acc.1 := by
  induction votes with
  | nil => intro acc; rfl
  | cons v vs ih =>
    intro acc
    rw [List.foldl_cons, ih (fun w hw => hv w (List.mem_cons_of_mem v hw))]
    unfold reschedStep
    rw [if_neg]
    exact Nat.not_lt.mpr (hv v (List.mem_cons_self v vs))

/-! ### Timer registry lemmas -/

/-- All timer ids in the state are below the fresh-id supply (an invariant
of every reachable state; timeout handles are never reused). -/
def idsBelow (s : SysState) : Prop :=
  (∀ c ∈ s.cancelled, c < s.nextId) ∧ ∀ e ∈ s.timers, e.timerId < s.nextId

/-- A list of length at most one is empty or a singleton. -/
theorem eq_nil_or_singleton {l : List α} (h : l.length ≤ 1) : l = [] ∨ ∃ a, l = [a] := by
  cases l with
  | nil => exact Or.inl rfl
  | cons x xs =>
    cases xs with
    | nil => exact Or.inr ⟨x, rfl⟩
    | cons y ys => simp at h

/-- Filtering after keeping only the complement yields nothing. -/
theorem filter_neg_filter (p : α → Bool) (l : List α) :
    (l.filter (fun e => !(p e))).filter p = [] := by
  rw [List.filter_eq_nil_iff]
  intro a ha
  have := (List.mem_filter.mp ha).2
  simp at this
  simp [this]

/-- Mapping a function that does not change the predicate value keeps the
filtered length. -/
theorem length_filter_map_pred (g : α → α) (p : α → Bool) (ts : List α)
    (h : ∀ e ∈ ts, p (g e) = p e) :
    ((ts.map g).filter p).length = (ts.filter p).length := by
  induction ts with
  | nil => rfl
  | cons x xs ih =>
    rw [List.map_cons, List.filter_cons, List.filter_cons,
      h x (List.mem_cons_self x xs)]
    by_cases hx : p x
    · rw [if_pos hx, if_pos hx]
      simp only [List.length_cons]
      rw [ih (fun e he => h e (List.mem_cons_of_mem x he))]
    · rw [if_neg hx, if_neg hx]
      exact ih (fun e he => h e (List.mem_cons_of_mem x he))

/-- `setEntry` preserves the at-most-one-entry-per-key bound, for every
key. -/
theorem entriesFor_setEntry_len (ts : List TimerEntry) (fid : Nat) (key : String)
    (id : Nat) (f : Nat) (k : String) (h : (entriesFor ts f k).length ≤ 1) :
    (entriesFor (setEntry ts fid key id) f k).length ≤ 1 := by
  unfold setEntry
  by_cases hany : ts.any (fun e => e.fid == fid && e.voteKey == key)
  · rw [if_pos hany]
    unfold entriesFor at h ⊢
    rw [length_filter_map_pred]
    · exact h
    · intro e _
      by_cases hp : e.fid == fid && e.voteKey == key
      · rw [if_pos hp]
        simp only [Bool.and_eq_true, beq_iff_eq] at hp
        show (fid == f && key == k) = (e.fid == f && e.voteKey == k)
        rw [hp.1, hp.2]
      · rw [if_neg hp]
  · rw [if_neg hany]
    unfold entriesFor at h ⊢
    rw [List.filter_append]
    by_cases hor : f = fid ∧ k = key
    · have hts : ts.filter (fun e => e.fid == f && e.voteKey == k) = [] := by
        rw [List.filter_eq_nil_iff]
        intro e he
        have hany0 : ts.any (fun e => e.fid == fid && e.voteKey == key) = false :=
          Bool.eq_false_iff.mpr hany
        have he2 := List.any_eq_false.mp hany0 e he
        rw [hor.1, hor.2]
        simpa using he2
      rw [hts, List.nil_append]
      exact (List.length_filter_le _ _).trans (by simp)
    · have hone : ([⟨fid, key, id⟩] : List TimerEntry).filter
          (fun e => e.fid == f && e.voteKey == k) = [] := by
        rw [List.filter_eq_nil_iff]
        intro e he
        rw [List.mem_singleton.mp he]
        simp only [Bool.and_eq_true, beq_iff_eq, not_and]
        intro h1 h2
        exact hor ⟨h1.symm, h2.symm⟩
      rw [hone, List.append_nil]
      exact h

/-- A key with no registry entry has no `find?` hit. -/
theorem find?_none_of_entries_nil (ts : List TimerEntry) (fid : Nat) (key : String)
    (h : entriesFor ts fid key = []) :
    ts.find? (fun e => e.fid == fid && e.voteKey == key) = none := by
  rw [find?_eq_filter_head?]
  unfold entriesFor at h
  rw [h]
  rfl

/-- A key with no registry entry fails the `any` test. -/
theorem any_false_of_entries_nil (ts : List TimerEntry) (fid : Nat) (key : String)
    (h : entriesFor ts fid key = []) :
    ts.any (fun e => e.fid == fid && e.voteKey == key) = false := by
  unfold entriesFor at h
  rw [List.filter_eq_nil_iff] at h
  exact List.any_eq_false.mpr h

/-- The row found for a fid carries that fid. -/
theorem storeGet_fid {st : List NotificationToken} {fid : Nat} {t : NotificationToken}
    (h : storeGet st fid = some t) : t.fid = fid := by
  unfold storeGet at h
  have := List.find?_some h
  simpa using this

/-! ### Claim theorems -/

/-- C8: for every fid with no subscription row in the store, `saveUserVote`
returns normally, writes nothing (the state is unchanged), launches no
notification and registers no timer — the vote is silently dropped. -/
theorem c8_no_subscription_noop (s : SysState) (fid : Nat) (address : String)
    (voteTime : Nat) (blockTimestamp : Option Nat) (network : Option String) (now : Nat)
    (h : storeGet s.store fid = none) :
    saveUserVote s fid address voteTime blockTimestamp network now = (s, []) := by
  unfold saveUserVote
  rw [h]

/-- Witness for C8 at a concrete empty store. -/
theorem c8_witness :
    saveUserVote ⟨[], [], [], 0⟩ 5 "0xabc" 10 none none 100 = (⟨[], [], [], 0⟩, []) :=
  c8_no_subscription_noop ⟨[], [], [], 0⟩ 5 "0xabc" 10 none none 100 rfl

/-- C9: the notification idempotency key is a deterministic function of
(fid, address, network, cooldownEndTime) alone: two invocations of the
notification path from arbitrary states and transport outcomes construct
character-for-character identical ids, built from the fid, the first 8
characters of the lowercased address, the first 6 characters of the
lowercased network, and the cooldown end time. -/
theorem c9_idempotency_key (s1 s2 : SysState) (fid : Nat) (address network : String)
    (cde : Nat) (o1 o2 : TransportOutcome) (t1 t2 : NotificationToken)
    (h1 : storeGet s1.store fid = some t1) (h1t : t1.token ≠ "") (h1u : t1.url ≠ "")
    (h2 : storeGet s2.store fid = some t2) (h2t : t2.token ≠ "") (h2u : t2.url ≠ "") :
    (sendCooldownNotificationStep s1 fid address network cde o1).2
        = some (notificationId fid address network cde)
      ∧ (sendCooldownNotificationStep s2 fid address network cde o2).2
        = (sendCooldownNotificationStep s1 fid address network cde o1).2
      ∧ notificationId fid address network cde
        = "cooldown-ended-" ++ toString fid ++ "-" ++ strLower (strTake address 8) ++ "-"
            ++ strLower (strTake network 6) ++ "-" ++ toString cde := by
  have step : ∀ (s : SysState) (o : TransportOutcome) (t : NotificationToken),
      storeGet s.store fid = some t → t.token ≠ "" → t.url ≠ "" →
      (sendCooldownNotificationStep s fid address network cde o).2
        = some (notificationId fid address network cde) := by
    intro s o t hg ht hu
    unfold sendCooldownNotificationStep
    rw [hg]
    have hcond : (t.token == "" || t.url == "") = false := by simp [ht, hu]
    simp only [hcond, Bool.false_eq_true, if_false]
    cases hB : ((sendFrameNotification s fid o).2 == SendResult.success)
    · have hne : (sendFrameNotification s fid o).2 ≠ SendResult.success :=
        ne_of_beq_false hB
      simp [hB, hne]
    · simp [hB]
  refine ⟨step s1 o1 t1 h1 h1t h1u, ?_, rfl⟩
  rw [step s1 o1 t1 h1 h1t h1u, step s2 o2 t2 h2 h2t h2u]

/-- Witness for C9 at two concrete states and distinct outcomes. -/
theorem c9_witness :
    (sendCooldownNotificationStep ⟨[{ fid := 3, token := "a", url := "b" }], [], [], 0⟩
        3 "0xAbCdEfGh" "base" 500 TransportOutcome.delivered).2
      = some (notificationId 3 "0xAbCdEfGh" "base" 500)
    ∧ (sendCooldownNotificationStep ⟨[{ fid := 3, token := "c", url := "d" }], [], [], 9⟩
        3 "0xAbCdEfGh" "base" 500 TransportOutcome.throttled).2
      = (sendCooldownNotificationStep ⟨[{ fid := 3, token := "a", url := "b" }], [], [], 0⟩
        3 "0xAbCdEfGh" "base" 500 TransportOutcome.delivered).2
    ∧ notificationId 3 "0xAbCdEfGh" "base" 500
      = "cooldown-ended-" ++ toString 3 ++ "-" ++ strLower (strTake "0xAbCdEfGh" 8) ++ "-"
          ++ strLower (strTake "base" 6) ++ "-" ++ toString 500 :=
  c9_idempotency_key ⟨[{ fid := 3, token := "a", url := "b" }], [], [], 0⟩
    ⟨[{ fid := 3, token := "c", url := "d" }], [], [], 9⟩ 3 "0xAbCdEfGh" "base" 500
    TransportOutcome.delivered TransportOutcome.throttled
    { fid := 3, token := "a", url := "b" } { fid := 3, token := "c", url := "d" }
    rfl (by decide) (by decide) rfl (by decide) (by decide)

/-- C3: when the transport reports `invalid_target` for a user with a
subscription, the whole subscription row is deleted and every timer of
that user is cancelled and removed from the registry, while other users
keep their timers. -/
theorem c3_invalid_target_cleanup (s : SysState) (fid : Nat) (t : NotificationToken)
    (hg : storeGet s.store fid = some t) (ht : t.token ≠ "") (hu : t.url ≠ "") :
    (sendFrameNotification s fid TransportOutcome.invalidTarget).2 = SendResult.noToken
    ∧ storeGet (sendFrameNotification s fid TransportOutcome.invalidTarget).1.store fid = none
    ∧ (∀ e ∈ (sendFrameNotification s fid TransportOutcome.invalidTarget).1.timers, e.fid ≠ fid)
    ∧ (∀ e ∈ s.timers, e.fid = fid →
        e.timerId ∈ (sendFrameNotification s fid TransportOutcome.invalidTarget).1.cancelled)
    ∧ (∀ e ∈ s.timers, e.fid ≠ fid →
        e ∈ (sendFrameNotification s fid TransportOutcome.invalidTarget).1.timers) := by
  have hred : sendFrameNotification s fid TransportOutcome.invalidTarget
      = (removeNotificationToken s fid, SendResult.noToken) := by
    unfold sendFrameNotification
    rw [hg]
    have hcond : (t.token == "" || t.url == "") = false := by simp [ht, hu]
    simp only [hcond, Bool.false_eq_true, if_false]
  rw [hred]
  unfold removeNotificationToken
  refine ⟨rfl, storeGet_storeRemove_self s.store fid, ?_, ?_, ?_⟩
  · intro e he
    have := (List.mem_filter.mp he).2
    simpa using this
  · intro e he hef
    apply List.mem_append.mpr
    left
    exact List.mem_map.mpr ⟨e, List.mem_filter.mpr ⟨he, by simp [hef]⟩, rfl⟩
  · intro e he hef
    exact List.mem_filter.mpr ⟨he, by simpa using hef⟩

/-- Witness for C3: one user with two timers, another user keeps theirs. -/
theorem c3_witness :
    (sendFrameNotification ⟨[{ fid := 2, token := "t", url := "u" }],
        [⟨2, "a:base", 0⟩, ⟨9, "b:base", 1⟩, ⟨2, "c:base", 2⟩], [], 3⟩
        2 TransportOutcome.invalidTarget).2 = SendResult.noToken
    ∧ storeGet (sendFrameNotification ⟨[{ fid := 2, token := "t", url := "u" }],
        [⟨2, "a:base", 0⟩, ⟨9, "b:base", 1⟩, ⟨2, "c:base", 2⟩], [], 3⟩
        2 TransportOutcome.invalidTarget).1.store 2 = none
    ∧ (∀ e ∈ (sendFrameNotification ⟨[{ fid := 2, token := "t", url := "u" }],
        [⟨2, "a:base", 0⟩, ⟨9, "b:base", 1⟩, ⟨2, "c:base", 2⟩], [], 3⟩
        2 TransportOutcome.invalidTarget).1.timers, e.fid ≠ 2) := by
  have h := c3_invalid_target_cleanup ⟨[{ fid := 2, token := "t", url := "u" }],
    [⟨2, "a:base", 0⟩, ⟨9, "b:base", 1⟩, ⟨2, "c:base", 2⟩], [], 3⟩
    2 { fid := 2, token := "t", url := "u" } rfl (by decide) (by decide)
  exact ⟨h.1, h.2.1, h.2.2.1⟩

/-- C2: a delivered outcome triggers `removeVoteRecord`, and
`removeVoteRecord` deletes exactly the vote records matching the composite
key (address case-insensitively, network exactly) from the user's votes
array, leaving every other vote record, the token fields, and all other
rows and timers unchanged; when nothing matches, the state is untouched. -/
theorem c2_remove_vote_record (s : SysState) (fid : Nat) (t : NotificationToken)
    (vs : List VoteRecord) (address network : String) (cde : Nat)
    (hm : migrateLegacyData t = t) (hg : storeGet s.store fid = some t)
    (hv : t.votes = some vs) :
    (storeGet (removeVoteRecord s fid address network).store fid
        = some { t with votes := some (vs.filter (fun v => !(keyMatch address network v))) })
    ∧ (∀ g : Nat, g ≠ fid →
        storeGet (removeVoteRecord s fid address network).store g = storeGet s.store g)
    ∧ (removeVoteRecord s fid address network).timers = s.timers
    ∧ (removeVoteRecord s fid address network).cancelled = s.cancelled
    ∧ ((∀ v ∈ vs, ¬(keyMatch address network v = true)) →
        removeVoteRecord s fid address network = s)
    ∧ (t.token ≠ "" → t.url ≠ "" →
        (sendCooldownNotificationStep s fid address network cde TransportOutcome.delivered).1
          = removeVoteRecord s fid address network) := by
  have hfid : t.fid = fid := storeGet_fid hg
  have hred : removeVoteRecord s fid address network =
      if ((vs.filter (fun v => !(keyMatch address network v))).length < vs.length) then
        { s with store := storeSave s.store { t with
            votes := some (vs.filter (fun v => !(keyMatch address network v))) } }
      else s := by
    unfold removeVoteRecord
    rw [hg]
    simp only [hm, hv, Option.getD_some]
  have hstep : t.token ≠ "" → t.url ≠ "" →
      (sendCooldownNotificationStep s fid address network cde TransportOutcome.delivered).1
        = removeVoteRecord s fid address network := by
    intro ht hu
    have hcond : (t.token == "" || t.url == "") = false := by simp [ht, hu]
    have hframe : sendFrameNotification s fid TransportOutcome.delivered
        = (s, SendResult.success) := by
      unfold sendFrameNotification
      rw [hg]
      simp only [hcond, Bool.false_eq_true, if_false]
    unfold sendCooldownNotificationStep
    rw [hg]
    simp only [hcond, Bool.false_eq_true, if_false, hframe]
    rfl
  by_cases hlt : (vs.filter (fun v => !(keyMatch address network v))).length < vs.length
  · rw [hred, if_pos hlt] at hstep ⊢
    refine ⟨?_, ?_, rfl, rfl, ?_, hstep⟩
    · have hfid2 : ({ t with votes := some (vs.filter (fun v => !(keyMatch address network v))) }
          : NotificationToken).fid = fid := hfid
      rw [← hfid2]
      exact storeGet_storeSave_self s.store _
    · intro g hgf
      exact storeGet_storeSave_other s.store _ g (by simpa [hfid] using hgf)
    · intro hall
      exfalso
      have : vs.filter (fun v => !(keyMatch address network v)) = vs :=
        List.filter_eq_self.mpr (fun v hvm => by simpa using hall v hvm)
      rw [this] at hlt
      exact Nat.lt_irrefl _ hlt
  · rw [hred, if_neg hlt] at hstep ⊢
    have hflen : (vs.filter (fun v => !(keyMatch address network v))).length = vs.length :=
      Nat.le_antisymm (List.length_filter_le _ _) (Nat.not_lt.mp hlt)
    have hfeq : vs.filter (fun v => !(keyMatch address network v)) = vs := by
      have hall := List.filter_length_eq_length.mp hflen
      exact List.filter_eq_self.mpr hall
    have hteq : ({ t with votes := some (vs.filter (fun v => !(keyMatch address network v))) }
        : NotificationToken) = t := by
      obtain ⟨f0, tok0, u0, a0, l0, v0⟩ := t
      simp only [NotificationToken.mk.injEq] at hv ⊢
      rw [hfeq, ← hv]
      simp
    rw [hteq]
    exact ⟨hg, fun g _ => rfl, rfl, rfl, fun _ => rfl, hstep⟩

/-- The concrete two-record row used by the C2 witness. -/
def c2row : NotificationToken :=
  ⟨4, "t", "u", none, none, some [⟨"0xAA", "base", 1, 2⟩, ⟨"0xBB", "base", 3, 4⟩]⟩

/-- Witness for C2: delete one of two records by its composite key. -/
theorem c2_witness :
    storeGet (removeVoteRecord ⟨[c2row], [], [], 0⟩ 4 "0xaa" "base").store 4
      = some ⟨4, "t", "u", none, none, some [⟨"0xBB", "base", 3, 4⟩]⟩ := by
  have h := c2_remove_vote_record ⟨[c2row], [], [], 0⟩ 4 c2row
    [⟨"0xAA", "base", 1, 2⟩, ⟨"0xBB", "base", 3, 4⟩] "0xaa" "base" 2
    (by decide) rfl rfl
  have h1 := h.1
  rw [show ([⟨"0xAA", "base", 1, 2⟩, ⟨"0xBB", "base", 3, 4⟩] : List VoteRecord).filter
      (fun v => !(keyMatch "0xaa" "base" v)) = [⟨"0xBB", "base", 3, 4⟩] by decide] at h1
  exact h1

/-! ### Reduction lemmas for `saveUserVote` -/

/-- The vote record `saveUserVote` persists for the incoming vote. -/
def savedVoteOf (address : String) (voteTime : Nat) (bt : Option Nat)
    (net : Option String) : VoteRecord :=
  ⟨address, voteNetworkOf net, actualVoteTimeOf bt voteTime,
    actualVoteTimeOf bt voteTime + 24 * 60 * 60⟩

/-- The votes array `saveUserVote` persists: expired pre-existing votes
pruned, the new vote merged by composite key. -/
def savedVotesOf (t : NotificationToken) (address : String) (voteTime : Nat)
    (bt : Option Nat) (net : Option String) (now : Nat) : List VoteRecord :=
  mergeByKey (((migrateLegacyData t).votes.getD []).filter (fun v => now < v.cooldownEndTime))
    (keyMatch address (voteNetworkOf net)) (savedVoteOf address voteTime bt net)

/-- The scheduling tail of `saveUserVote` never touches the database. -/
theorem after_sched_store (s1 : SysState) (c : Bool) (fid : Nat)
    (av uv : List VoteRecord) (address voteNetwork : String) (avt cde now : Nat) :
    (rescheduleAllNotifications (scheduleCooldownNotification
        (if c then rescheduleAllNotifications s1 fid av now else (s1, [])).1
        fid address voteNetwork avt cde now).1 fid uv now).1.store = s1.store := by
  rw [rescheduleAll_store, schedule_store]
  cases c
  · rfl
  · exact rescheduleAll_store s1 fid av now

/-- What `saveUserVote` writes for the user when a row exists. -/
theorem saveUserVote_store (s : SysState) (fid : Nat) (address : String)
    (voteTime : Nat) (bt : Option Nat) (net : Option String) (now : Nat)
    (t : NotificationToken) (hg : storeGet s.store fid = some t) :
    (saveUserVote s fid address voteTime bt net now).1.store
      = storeSave s.store { migrateLegacyData t with
          votes := some (savedVotesOf t address voteTime bt net now) } := by
  unfold saveUserVote
  rw [hg]
  exact after_sched_store
    { s with store := storeSave s.store { migrateLegacyData t with
        votes := some (savedVotesOf t address voteTime bt net now) } }
    _ fid _ _ address (voteNetworkOf net) (actualVoteTimeOf bt voteTime)
    (actualVoteTimeOf bt voteTime + 24 * 60 * 60) now

/-- Reading back the user after `saveUserVote` yields the merged row, and
the composite-key lookup in it yields exactly the new vote record. -/
theorem saveUserVote_found_record (s : SysState) (fid : Nat) (address : String)
    (voteTime : Nat) (bt : Option Nat) (net : Option String) (now : Nat)
    (t : NotificationToken) (hg : storeGet s.store fid = some t) :
    storeGet (saveUserVote s fid address voteTime bt net now).1.store fid
      = some { migrateLegacyData t with
          votes := some (savedVotesOf t address voteTime bt net now) }
    ∧ (savedVotesOf t address voteTime bt net now).find?
        (keyMatch address (voteNetworkOf net)) = some (savedVoteOf address voteTime bt net) := by
  constructor
  · rw [saveUserVote_store s fid address voteTime bt net now t hg]
    have hfid : ({ migrateLegacyData t with
        votes := some (savedVotesOf t address voteTime bt net now) } : NotificationToken).fid
        = fid := by
      have h1 := (migrate_preserves_fields t).1
      have h2 := storeGet_fid hg
      simpa [h1] using h2
    rw [← hfid]
    exact storeGet_storeSave_self _ _
  · unfold savedVotesOf
    apply find?_mergeByKey
    unfold keyMatch savedVoteOf
    simp

/-- C7 counterexample: with a subscription on file, a vote reported with
`blockTimestamp = 0` (present) and `voteTime = 5` is persisted with
`voteTime 5`, not the supplied block timestamp — JavaScript `||` treats a
zero block timestamp as absent, contradicting the claim that a present
`blockTimestamp` is always used. -/
theorem c7_counterexample :
    (storeGet (saveUserVote ⟨[⟨1, "t", "u", none, none, some []⟩], [], [], 0⟩
        1 "0xabc" 5 (some 0) (some "base") 100).1.store 1).map (fun u => u.votes.getD [])
      = some [⟨"0xabc", "base", 5, 86405⟩]
    ∧ (5 : Nat) ≠ 0 :=
  ⟨by decide, by decide⟩

/-- C7 (amended): `saveUserVote` persists a record with
`voteTime = blockTimestamp` and `cooldownEndTime = blockTimestamp + 86400`
whenever the block timestamp is present and nonzero; when it is absent —
or zero, which JavaScript `||` treats as absent — the event `voteTime` is
used instead, with `cooldownEndTime = voteTime + 86400`. -/
theorem c7_authoritative_time (s : SysState) (fid : Nat) (address : String)
    (voteTime b : Nat) (net : Option String) (now : Nat)
    (t : NotificationToken) (hg : storeGet s.store fid = some t) :
    (b ≠ 0 →
      (savedVotesOf t address voteTime (some b) net now).find?
          (keyMatch address (voteNetworkOf net))
        = some ⟨address, voteNetworkOf net, b, b + 24 * 60 * 60⟩
      ∧ storeGet (saveUserVote s fid address voteTime (some b) net now).1.store fid
        = some { migrateLegacyData t with
            votes := some (savedVotesOf t address voteTime (some b) net now) })
    ∧ ((savedVotesOf t address voteTime none net now).find?
          (keyMatch address (voteNetworkOf net))
        = some ⟨address, voteNetworkOf net, voteTime, voteTime + 24 * 60 * 60⟩
      ∧ storeGet (saveUserVote s fid address voteTime none net now).1.store fid
        = some { migrateLegacyData t with
            votes := some (savedVotesOf t address voteTime none net now) })
    ∧ (savedVotesOf t address voteTime (some 0) net now).find?
          (keyMatch address (voteNetworkOf net))
        = some ⟨address, voteNetworkOf net, voteTime, voteTime + 24 * 60 * 60⟩ := by
  refine ⟨fun hb => ⟨?_, (saveUserVote_found_record s fid address voteTime (some b) net now t hg).1⟩,
    ⟨?_, (saveUserVote_found_record s fid address voteTime none net now t hg).1⟩, ?_⟩
  · have h := (saveUserVote_found_record s fid address voteTime (some b) net now t hg).2
    simp only [savedVoteOf, actualVoteTimeOf] at h
    rw [if_neg (show ((b == 0) = true) → False by simpa using hb)] at h
    exact h
  · exact (saveUserVote_found_record s fid address voteTime none net now t hg).2
  · have h := (saveUserVote_found_record s fid address voteTime (some 0) net now t hg).2
    simp only [savedVoteOf, actualVoteTimeOf, beq_self_eq_true, if_true] at h
    exact h

/-- Witness for the amended C7 at a concrete nonzero block timestamp. -/
theorem c7_witness :
    (savedVotesOf ⟨1, "t", "u", none, none, some []⟩ "0xabc" 5 (some 42) (some "base") 100).find?
        (keyMatch "0xabc" (voteNetworkOf (some "base")))
      = some ⟨"0xabc", voteNetworkOf (some "base"), 42, 42 + 24 * 60 * 60⟩ :=
  ((c7_authoritative_time ⟨[⟨1, "t", "u", none, none, some []⟩], [], [], 0⟩ 1 "0xabc" 5 42
    (some "base") 100 ⟨1, "t", "u", none, none, some []⟩ rfl).1 (by decide)).1

/-! ### Reduction lemmas for `restoreAllNotifications` -/

/-- `migrateNet` keeps the cooldown end time. -/
theorem migrateNet_cde (v : VoteRecord) :
    (migrateNet v).cooldownEndTime = v.cooldownEndTime := by
  unfold migrateNet
  split <;> rfl

/-- A row whose migration has no votes array had none to begin with. -/
theorem migrate_votes_none (tok : NotificationToken)
    (h : (migrateLegacyData tok).votes = none) : tok.votes = none := by
  unfold migrateLegacyData at h
  split at h
  next vs heq =>
    split at h
    · simp at h
    · unfold migrateLegacyFallback at h
      split at h
      · split at h
        · exact heq ▸ h
        · simp at h
      · exact heq ▸ h
  next heq =>
    exact heq

/-- Activeness of all migrated votes transfers back to the stored votes. -/
theorem migrate_allActive_back (tok : NotificationToken) (vs : List VoteRecord) (now : Nat)
    (h : (migrateLegacyData tok).votes = some vs)
    (hall : ∀ v ∈ vs, now < v.cooldownEndTime) :
    ∀ v ∈ tok.votes.getD [], now < v.cooldownEndTime := by
  obtain ⟨f0, tk0, u0, a0, l0, votes0⟩ := tok
  rcases votes0 with _ | vs0
  · intro v hv
    simp at hv
  · rcases vs0 with _ | ⟨x, xs⟩
    · intro v hv
      simp at hv
    · have hm : migrateLegacyData ⟨f0, tk0, u0, a0, l0, some (x :: xs)⟩
          = ⟨f0, tk0, u0, a0, l0, some ((x :: xs).map migrateNet)⟩ := by
        simp [migrateLegacyData]
      rw [hm] at h
      simp only at h
      have hvs : vs = (x :: xs).map migrateNet := (Option.some_injective _ h).symm
      intro v hv
      simp only [Option.getD_some] at hv
      have := hall (migrateNet v) (hvs ▸ List.mem_map.mpr ⟨v, hv, rfl⟩)
      rwa [migrateNet_cde] at this

/-- The store written by the nonempty-votes branch of the loop body. -/
theorem processActive_store (now : Nat) (acc : SysState × Nat × Nat)
    (tok : NotificationToken) (av : List VoteRecord) (e : Nat) :
    (processActive now acc tok av e).1.store = (restoreSaved acc tok av e).store := by
  unfold processActive
  by_cases h1 : av.length > 0
  · rw [if_pos h1]
    by_cases h2 : (restoreSaved acc tok av e).timers.any (fun x => x.fid == tok.fid)
    · rw [if_pos h2]
    · rw [if_neg h2]
      exact rescheduleAll_store _ _ _ _
  · rw [if_neg h1]

/-- The per-row body of the reconciliation either leaves the store alone
(and then the row stored only active votes) or overwrites the row with
its active votes only. -/
theorem processRestoreToken_store_cases (now : Nat) (acc : SysState × Nat × Nat)
    (tok : NotificationToken) :
    ((processRestoreToken now acc tok).1.store = acc.1.store
      ∧ ∀ v ∈ tok.votes.getD [], now < v.cooldownEndTime)
    ∨ ∃ saved : NotificationToken,
        (processRestoreToken now acc tok).1.store = storeSave acc.1.store saved
        ∧ (∀ v ∈ saved.votes.getD [], now < v.cooldownEndTime)
        ∧ saved.fid = tok.fid := by
  rcases hmv : (migrateLegacyData tok).votes with _ | vs
  · have hpr : processRestoreToken now acc tok = acc := by
      unfold processRestoreToken
      rw [hmv]
    left
    refine ⟨by rw [hpr], ?_⟩
    rw [migrate_votes_none tok hmv]
    intro v hv
    simp at hv
  · have hpr : processRestoreToken now acc tok =
        if vs.length > 0 then
          processActive now acc tok (vs.filter (fun v => now < v.cooldownEndTime))
            (vs.length - (vs.filter (fun v => now < v.cooldownEndTime)).length)
        else acc := by
      unfold processRestoreToken
      rw [hmv]
    by_cases hlen : vs.length > 0
    · rw [hpr, if_pos hlen]
      by_cases hexp : vs.length - (vs.filter (fun v => now < v.cooldownEndTime)).length > 0
      · right
        refine ⟨{ migrateLegacyData tok with
            votes := some (vs.filter (fun v => now < v.cooldownEndTime)) }, ?_, ?_, ?_⟩
        · rw [processActive_store]
          unfold restoreSaved
          rw [if_pos hexp]
        · intro v hv
          simp only [Option.getD_some] at hv
          exact of_decide_eq_true (List.mem_filter.mp hv).2
        · exact (migrate_preserves_fields tok).1
      · left
        constructor
        · rw [processActive_store]
          unfold restoreSaved
          rw [if_neg hexp]
        · have hle := List.length_filter_le
            (fun v => decide (now < v.cooldownEndTime)) vs
          have hlen2 : (vs.filter (fun v => now < v.cooldownEndTime)).length
              = vs.length := by omega
          exact migrate_allActive_back tok vs now hmv
            (fun v hv => of_decide_eq_true (List.filter_length_eq_length.mp hlen2 v hv))
    · rw [hpr, if_neg hlen]
      left
      have hnil : vs = [] := by
        cases vs with
        | nil => rfl
        | cons a l => simp at hlen
      subst hnil
      refine ⟨rfl, migrate_allActive_back tok [] now hmv ?_⟩
      intro v hv
      simp at hv

/-- Invariant of the reconciliation scan: once every pending row is
processed, every stored row holds only active votes. -/
theorem restore_invariant (now : Nat) :
    ∀ (pending : List NotificationToken) (acc : SysState × Nat × Nat),
      (∀ u ∈ acc.1.store, u ∈ pending ∨ ∀ v ∈ u.votes.getD [], now < v.cooldownEndTime) →
      ∀ u ∈ (pending.foldl (processRestoreToken now) acc).1.store,
        ∀ v ∈ u.votes.getD [], now < v.cooldownEndTime := by
  intro pending
  induction pending with
  | nil =>
    intro acc hinv u hu
    rcases hinv u hu with h | h
    · simp at h
    · exact h
  | cons tok rest ih =>
    intro acc hinv
    rw [List.foldl_cons]
    apply ih
    rcases processRestoreToken_store_cases now acc tok with ⟨heq, hatok⟩ | ⟨saved, heq, hsaved, hfid⟩
    · intro u hu
      rw [heq] at hu
      rcases hinv u hu with hin | hact
      · rcases List.mem_cons.mp hin with rfl | hr
        · exact Or.inr hatok
        · exact Or.inl hr
      · exact Or.inr hact
    · intro u hu
      rw [heq] at hu
      rcases mem_storeSave hu with rfl | ⟨hin, hne⟩
      · exact Or.inr hsaved
      · rcases hinv u hin with hin2 | hact
        · rcases List.mem_cons.mp hin2 with rfl | hr
          · exact absurd hfid (Ne.symm (by simpa using hne))
          · exact Or.inl hr
        · exact Or.inr hact

/-- C1: both prune paths eliminate expired records from persisted state:
after `saveUserVote` the user's stored votes are all active except
possibly the newly recorded vote itself, and after
`restoreAllNotifications` every stored row of every user holds only votes
with `cooldownEndTime > now`. -/
theorem c1_prune_expired :
    (∀ (s : SysState) (fid : Nat) (address : String) (voteTime : Nat) (bt : Option Nat)
      (net : Option String) (now : Nat) (t t2 : NotificationToken),
      storeGet s.store fid = some t →
      storeGet (saveUserVote s fid address voteTime bt net now).1.store fid = some t2 →
      ∀ v ∈ t2.votes.getD [], now < v.cooldownEndTime ∨ v = savedVoteOf address voteTime bt net)
    ∧ (∀ (s : SysState) (now : Nat) (t2 : NotificationToken),
        t2 ∈ (restoreAllNotifications s now).1.store →
        ∀ v ∈ t2.votes.getD [], now < v.cooldownEndTime) := by
  constructor
  · intro s fid address voteTime bt net now t t2 hg hg2 v hv
    have h1 := (saveUserVote_found_record s fid address voteTime bt net now t hg).1
    rw [hg2] at h1
    have ht2 : t2 = { migrateLegacyData t with
        votes := some (savedVotesOf t address voteTime bt net now) } :=
      Option.some_injective _ h1
    rw [ht2] at hv
    simp only [Option.getD_some] at hv
    unfold savedVotesOf at hv
    rcases mem_mergeByKey hv with rfl | hm
    · exact Or.inr rfl
    · exact Or.inl (of_decide_eq_true (List.mem_filter.mp hm).2)
  · intro s now t2 h2
    unfold restoreAllNotifications at h2
    exact restore_invariant now s.store (s, 0, 0) (fun u hu => Or.inl hu) t2 h2

/-- Witness for C1: after a reconciliation over a store holding one
expired and one active record, the surviving record is active. -/
theorem c1_witness :
    ∀ v ∈ (⟨7, "t", "u", none, none, some [⟨"0xBBB", "base", 900, 2000⟩]⟩
        : NotificationToken).votes.getD [], (1000 : Nat) < v.cooldownEndTime := by
  have h := c1_prune_expired.2
    ⟨[⟨7, "t", "u", none, none,
      some [⟨"0xAAA", "base", 100, 1000⟩, ⟨"0xBBB", "base", 900, 2000⟩]⟩], [], [], 0⟩ 1000
    ⟨7, "t", "u", none, none, some [⟨"0xBBB", "base", 900, 2000⟩]⟩ (by decide)
  exact h

/-- The defaulted network of a vote is never the empty string. -/
theorem voteNetworkOf_ne (net : Option String) : voteNetworkOf net ≠ "" := by
  rcases net with _ | n
  · simp [voteNetworkOf]
  · simp only [voteNetworkOf]
    by_cases hn : n == ""
    · rw [if_pos hn]
      simp
    · rw [if_neg hn]
      simpa using hn

/-- The new vote matches its own composite key. -/
theorem keyMatch_savedVote (address : String) (voteTime : Nat) (bt : Option Nat)
    (net : Option String) :
    keyMatch address (voteNetworkOf net) (savedVoteOf address voteTime bt net) = true := by
  unfold keyMatch savedVoteOf
  simp

/-- Every record persisted by `saveUserVote` has a nonempty network. -/
theorem savedVotes_networks_ne (t : NotificationToken) (address : String) (voteTime : Nat)
    (bt : Option Nat) (net : Option String) (now : Nat) :
    ∀ v ∈ savedVotesOf t address voteTime bt net now, v.network ≠ "" := by
  intro v hv
  unfold savedVotesOf at hv
  rcases mem_mergeByKey hv with rfl | hm
  · exact voteNetworkOf_ne net
  · exact migrate_votes_network_ne_all t v (List.mem_filter.mp hm).1

/-- C10: the newly recorded vote is exempt from the inline prune of
`saveUserVote`: even when its cooldown end is already `≤ now` it is
persisted (merged by composite key), only pre-existing records are
filtered by expiry, and the record is removed by the delivered-outcome
notification path (`removeVoteRecord`). -/
theorem c10_new_vote_exempt (s : SysState) (fid : Nat) (address : String)
    (voteTime : Nat) (bt : Option Nat) (net : Option String) (now : Nat)
    (t : NotificationToken) (hg : storeGet s.store fid = some t)
    (hexp : actualVoteTimeOf bt voteTime + 24 * 60 * 60 ≤ now)
    (ht : t.token ≠ "") (hu : t.url ≠ "") :
    storeGet (saveUserVote s fid address voteTime bt net now).1.store fid
      = some { migrateLegacyData t with
          votes := some (savedVotesOf t address voteTime bt net now) }
    ∧ savedVoteOf address voteTime bt net ∈ savedVotesOf t address voteTime bt net now
    ∧ (∀ v ∈ savedVotesOf t address voteTime bt net now,
        v = savedVoteOf address voteTime bt net
        ∨ (v ∈ (migrateLegacyData t).votes.getD [] ∧ now < v.cooldownEndTime))
    ∧ ∃ t3, storeGet (sendCooldownNotificationStep
          (saveUserVote s fid address voteTime bt net now).1 fid address
          (voteNetworkOf net) (actualVoteTimeOf bt voteTime + 24 * 60 * 60)
          TransportOutcome.delivered).1.store fid = some t3
        ∧ ∀ v ∈ t3.votes.getD [], keyMatch address (voteNetworkOf net) v = false := by
  have hsg := (saveUserVote_found_record s fid address voteTime bt net now t hg).1
  have hmem : savedVoteOf address voteTime bt net ∈ savedVotesOf t address voteTime bt net now :=
    nv_mem_mergeByKey _ _ (keyMatch_savedVote address voteTime bt net) _
  refine ⟨hsg, hmem, ?_, ?_⟩
  · intro v hv
    unfold savedVotesOf at hv
    rcases mem_mergeByKey hv with rfl | hm
    · exact Or.inl rfl
    · exact Or.inr ⟨(List.mem_filter.mp hm).1,
        of_decide_eq_true (List.mem_filter.mp hm).2⟩
  · set saved : NotificationToken := { migrateLegacyData t with
      votes := some (savedVotesOf t address voteTime bt net now) } with hsaved
    have hs_token : saved.token = t.token := (migrate_preserves_fields t).2.1
    have hs_url : saved.url = t.url := (migrate_preserves_fields t).2.2
    have hs_fid : saved.fid = fid := by
      have := (migrate_preserves_fields t).1
      simpa [hsaved, this] using storeGet_fid hg
    have hcond : (saved.token == "" || saved.url == "") = false := by
      rw [hs_token, hs_url]
      simp [ht, hu]
    have hmig : migrateLegacyData saved = saved := by
      apply migrateLegacyData_eq_self saved (savedVotesOf t address voteTime bt net now) rfl
      · exact List.ne_nil_of_mem hmem
      · exact savedVotes_networks_ne t address voteTime bt net now
    have hframe : sendFrameNotification (saveUserVote s fid address voteTime bt net now).1 fid
        TransportOutcome.delivered
          = ((saveUserVote s fid address voteTime bt net now).1, SendResult.success) := by
      unfold sendFrameNotification
      rw [hsg]
      simp only [hcond, Bool.false_eq_true, if_false]
    have hstep : (sendCooldownNotificationStep
        (saveUserVote s fid address voteTime bt net now).1 fid address
        (voteNetworkOf net) (actualVoteTimeOf bt voteTime + 24 * 60 * 60)
        TransportOutcome.delivered).1
          = removeVoteRecord (saveUserVote s fid address voteTime bt net now).1 fid address
            (voteNetworkOf net) := by
      unfold sendCooldownNotificationStep
      rw [hsg]
      simp only [hcond, Bool.false_eq_true, if_false, hframe]
      rfl
    rw [hstep]
    have hrem : removeVoteRecord (saveUserVote s fid address voteTime bt net now).1 fid address
        (voteNetworkOf net)
          = { (saveUserVote s fid address voteTime bt net now).1 with
              store := storeSave (saveUserVote s fid address voteTime bt net now).1.store
                { saved with votes := some ((savedVotesOf t address voteTime bt net now).filter
                    (fun v => !(keyMatch address (voteNetworkOf net) v))) } } := by
      unfold removeVoteRecord
      rw [hsg]
      simp only [hmig, Option.getD_some]
      rw [if_pos]
      apply List.length_filter_lt_length_iff_exists.mpr
      refine ⟨savedVoteOf address voteTime bt net, hmem, ?_⟩
      simp [keyMatch_savedVote address voteTime bt net]
    rw [hrem]
    refine ⟨{ saved with votes := some ((savedVotesOf t address voteTime bt net now).filter
        (fun v => !(keyMatch address (voteNetworkOf net) v))) }, ?_, ?_⟩
    · have hfid2 : ({ saved with votes := some ((savedVotesOf t address voteTime bt net now).filter
          (fun v => !(keyMatch address (voteNetworkOf net) v))) } : NotificationToken).fid
          = fid := hs_fid
      simp only
      rw [← hfid2]
      exact storeGet_storeSave_self _ _
    · intro v hv
      simp only [Option.getD_some] at hv
      have := (List.mem_filter.mp hv).2
      simpa using this

/-- Witness for C10: a vote recorded after its cooldown already elapsed is
nevertheless persisted. -/
theorem c10_witness :
    savedVoteOf "0xabc" 5 none (some "base")
      ∈ savedVotesOf ⟨1, "t", "u", none, none, some []⟩ "0xabc" 5 none (some "base") 100000 :=
  (c10_new_vote_exempt ⟨[⟨1, "t", "u", none, none, some []⟩], [], [], 0⟩ 1 "0xabc" 5 none
    (some "base") 100000 ⟨1, "t", "u", none, none, some []⟩ rfl (by decide)
    (by decide) (by decide)).2.1

/-- The prune step never touches the timer registry. -/
theorem restoreSaved_timers (acc : SysState × Nat × Nat) (tok : NotificationToken)
    (av : List VoteRecord) (e : Nat) :
    (restoreSaved acc tok av e).timers = acc.1.timers := by
  unfold restoreSaved
  split <;> rfl

/-- C4: for a user whose row holds `e > 0` expired and `a > 0` active
records and who has no registered timer, one reconciliation pass persists
exactly the active records, adds `e` to `cleaned` and `1` (per user) to
`restored`; a user with a registered timer is not re-armed and does not
count toward `restored`; and the one-expired-one-active scenario yields
`restored = 1, cleaned = 1`. -/
theorem c4_restore_counts :
    (∀ (now : Nat) (acc : SysState × Nat × Nat) (tok : NotificationToken)
      (vs : List VoteRecord),
      migrateLegacyData tok = tok → tok.votes = some vs →
      (vs.filter (fun v => now < v.cooldownEndTime)).length < vs.length →
      0 < (vs.filter (fun v => now < v.cooldownEndTime)).length →
      (∀ e ∈ acc.1.timers, e.fid ≠ tok.fid) →
      (processRestoreToken now acc tok).2.1 = acc.2.1 + 1
      ∧ (processRestoreToken now acc tok).2.2
          = acc.2.2 + (vs.length - (vs.filter (fun v => now < v.cooldownEndTime)).length)
      ∧ storeGet (processRestoreToken now acc tok).1.store tok.fid
          = some { tok with votes := some (vs.filter (fun v => now < v.cooldownEndTime)) })
    ∧ (∀ (now : Nat) (acc : SysState × Nat × Nat) (tok : NotificationToken),
      (∃ e ∈ acc.1.timers, e.fid = tok.fid) →
      (processRestoreToken now acc tok).2.1 = acc.2.1
      ∧ (processRestoreToken now acc tok).1.timers = acc.1.timers)
    ∧ (restoreAllNotifications ⟨[⟨7, "t", "u", none, none,
        some [⟨"0xAAA", "base", 100, 1000⟩, ⟨"0xBBB", "base", 900, 2000⟩]⟩], [], [], 0⟩
        1000).2 = ⟨1, 0, 1⟩ := by
  refine ⟨?_, ?_, by decide⟩
  · intro now acc tok vs hm hv hlt hpos htimers
    have hmv : (migrateLegacyData tok).votes = some vs := by rw [hm, hv]
    have hpr0 : processRestoreToken now acc tok =
        if vs.length > 0 then
          processActive now acc tok (vs.filter (fun v => now < v.cooldownEndTime))
            (vs.length - (vs.filter (fun v => now < v.cooldownEndTime)).length)
        else acc := by
      unfold processRestoreToken
      rw [hmv]
    have hpr : processRestoreToken now acc tok =
        processActive now acc tok (vs.filter (fun v => now < v.cooldownEndTime))
          (vs.length - (vs.filter (fun v => now < v.cooldownEndTime)).length) := by
      rw [hpr0, if_pos (by omega)]
    have hany : ((restoreSaved acc tok (vs.filter (fun v => now < v.cooldownEndTime))
        (vs.length - (vs.filter (fun v => now < v.cooldownEndTime)).length)).timers.any
          (fun e => e.fid == tok.fid)) = false := by
      rw [restoreSaved_timers]
      apply List.any_eq_false.mpr
      intro e he
      simpa using htimers e he
    have hpa : processActive now acc tok (vs.filter (fun v => now < v.cooldownEndTime))
        (vs.length - (vs.filter (fun v => now < v.cooldownEndTime)).length)
        = ((rescheduleAllNotifications (restoreSaved acc tok
            (vs.filter (fun v => now < v.cooldownEndTime))
            (vs.length - (vs.filter (fun v => now < v.cooldownEndTime)).length))
            tok.fid (vs.filter (fun v => now < v.cooldownEndTime)) now).1,
          acc.2.1 + 1, acc.2.2
            + (vs.length - (vs.filter (fun v => now < v.cooldownEndTime)).length)) := by
      unfold processActive
      rw [if_pos hpos, if_neg (by rw [hany]; simp)]
    rw [hpr, hpa]
    refine ⟨rfl, rfl, ?_⟩
    simp only
    rw [rescheduleAll_store]
    unfold restoreSaved
    rw [if_pos (by omega)]
    simp only
    rw [hm]
    have hfid2 : ({ tok with
        votes := some (vs.filter (fun v => now < v.cooldownEndTime)) } : NotificationToken).fid
        = tok.fid := rfl
    rw [← hfid2]
    exact storeGet_storeSave_self _ _
  · intro now acc tok htimer
    rcases hmv : (migrateLegacyData tok).votes with _ | vs
    · have hpr : processRestoreToken now acc tok = acc := by
        unfold processRestoreToken
        rw [hmv]
      rw [hpr]
      exact ⟨rfl, rfl⟩
    · have hpr : processRestoreToken now acc tok =
          if vs.length > 0 then
            processActive now acc tok (vs.filter (fun v => now < v.cooldownEndTime))
              (vs.length - (vs.filter (fun v => now < v.cooldownEndTime)).length)
          else acc := by
        unfold processRestoreToken
        rw [hmv]
      by_cases hlen : vs.length > 0
      · rw [hpr, if_pos hlen]
        have hany : ((restoreSaved acc tok (vs.filter (fun v => now < v.cooldownEndTime))
            (vs.length - (vs.filter (fun v => now < v.cooldownEndTime)).length)).timers.any
              (fun e => e.fid == tok.fid)) = true := by
          rw [restoreSaved_timers]
          rcases htimer with ⟨e, he, hef⟩
          exact List.any_eq_true.mpr ⟨e, he, by simp [hef]⟩
        unfold processActive
        by_cases hact : (vs.filter (fun v => now < v.cooldownEndTime)).length > 0
        · rw [if_pos hact, if_pos (by rw [hany])]
          exact ⟨rfl, restoreSaved_timers _ _ _ _⟩
        · rw [if_neg hact]
          exact ⟨rfl, restoreSaved_timers _ _ _ _⟩
      · rw [hpr, if_neg hlen]
        exact ⟨rfl, rfl⟩

/-- Witness for C4: the per-user pass at a concrete one-expired,
one-active row with no timers adds one to `restored` and one to
`cleaned`. -/
theorem c4_witness :
    (processRestoreToken 1000 (⟨[⟨7, "t", "u", none, none,
        some [⟨"0xAAA", "base", 100, 1000⟩, ⟨"0xBBB", "base", 900, 2000⟩]⟩], [], [], 0⟩, 0, 0)
      ⟨7, "t", "u", none, none,
        some [⟨"0xAAA", "base", 100, 1000⟩, ⟨"0xBBB", "base", 900, 2000⟩]⟩).2.1 = 0 + 1 := by
  have h := (c4_restore_counts.1 1000 (⟨[⟨7, "t", "u", none, none,
      some [⟨"0xAAA", "base", 100, 1000⟩, ⟨"0xBBB", "base", 900, 2000⟩]⟩], [], [], 0⟩, 0, 0)
    ⟨7, "t", "u", none, none,
      some [⟨"0xAAA", "base", 100, 1000⟩, ⟨"0xBBB", "base", 900, 2000⟩]⟩
    [⟨"0xAAA", "base", 100, 1000⟩, ⟨"0xBBB", "base", 900, 2000⟩]
    (by decide) rfl (by decide) (by decide) (by intro e he; simp at he))
  exact h.1

/-- Equation for the immediate-fire branch of the scheduler. -/
theorem schedule_immediate (s : SysState) (fid : Nat) (address network : String)
    (vt cde now : Nat) (hle : cde ≤ now) :
    scheduleCooldownNotification s fid address network vt cde now
      = ({ s with cancelled :=
          match s.timers.find? (fun e => e.fid == fid
              && e.voteKey == getVoteKey address network) with
          | some e => e.timerId :: s.cancelled
          | none => s.cancelled },
        [Event.fire fid address network cde]) := by
  show (if cde ≤ now then _ else _) = _
  rw [if_pos hle]

/-- Equation for the timer-registering branch of the scheduler. -/
theorem schedule_future (s : SysState) (fid : Nat) (address network : String)
    (vt cde now : Nat) (hgt : now < cde) :
    scheduleCooldownNotification s fid address network vt cde now
      = ({ s with
          timers := setEntry s.timers fid (getVoteKey address network) s.nextId
          cancelled :=
            match s.timers.find? (fun e => e.fid == fid
                && e.voteKey == getVoteKey address network) with
            | some e => e.timerId :: s.cancelled
            | none => s.cancelled
          nextId := s.nextId + 1 }, []) := by
  show (if cde ≤ now then _ else _) = _
  rw [if_neg (Nat.not_le.mpr hgt)]

/-- Registering a timer under a key with no existing entry yields exactly
one entry for the key. -/
theorem entriesFor_setEntry_fresh (ts : List TimerEntry) (fid : Nat) (key : String)
    (id : Nat) (h : entriesFor ts fid key = []) :
    entriesFor (setEntry ts fid key id) fid key = [⟨fid, key, id⟩] := by
  unfold setEntry
  rw [if_neg (by rw [any_false_of_entries_nil ts fid key h]; simp)]
  unfold entriesFor at h ⊢
  rw [List.filter_append, h]
  simp

/-- Merging into an empty votes array appends the new record. -/
theorem mergeByKey_nil (p : α → Bool) (nv : α) : mergeByKey [] p nv = [nv] := rfl

/-- C6: a scheduling call with `cooldownEndTime <= now` (equality
included) invokes the notification callback immediately and leaves no
live timer under the key, while a call with `cooldownEndTime > now`
registers a timer and sends nothing; in particular `saveUserVote` for a
vote whose cooldown has already elapsed fires immediately and registers
no timer. -/
theorem c6_immediate_fire :
    (∀ (s : SysState) (fid : Nat) (address network : String) (vt cde now : Nat),
      cde ≤ now →
      (entriesFor s.timers fid (getVoteKey address network)).length ≤ 1 →
      (scheduleCooldownNotification s fid address network vt cde now).2
        = [Event.fire fid address network cde]
      ∧ (scheduleCooldownNotification s fid address network vt cde now).1.timers = s.timers
      ∧ liveEntriesFor (scheduleCooldownNotification s fid address network vt cde now).1
          fid (getVoteKey address network) = [])
    ∧ (∀ (s : SysState) (fid : Nat) (address network : String) (vt cde now : Nat),
      now < cde →
      entriesFor s.timers fid (getVoteKey address network) = [] →
      (scheduleCooldownNotification s fid address network vt cde now).2 = []
      ∧ entriesFor (scheduleCooldownNotification s fid address network vt cde now).1.timers
          fid (getVoteKey address network)
        = [⟨fid, getVoteKey address network, s.nextId⟩])
    ∧ (∀ (store0 : List NotificationToken) (cancelled0 : List Nat) (nextId0 fid : Nat)
        (address : String) (voteTime : Nat) (bt : Option Nat) (net : Option String)
        (now : Nat) (t : NotificationToken),
      storeGet store0 fid = some t →
      (migrateLegacyData t).votes.getD [] = [] →
      actualVoteTimeOf bt voteTime + 24 * 60 * 60 ≤ now →
      Event.fire fid address (voteNetworkOf net) (actualVoteTimeOf bt voteTime + 24 * 60 * 60)
          ∈ (saveUserVote ⟨store0, [], cancelled0, nextId0⟩ fid address voteTime bt net now).2
      ∧ (saveUserVote ⟨store0, [], cancelled0, nextId0⟩ fid address voteTime bt net now).1.timers
          = []) := by
  refine ⟨?_, ?_, ?_⟩
  · intro s fid address network vt cde now hle hlen1
    rw [schedule_immediate s fid address network vt cde now hle]
    refine ⟨rfl, rfl, ?_⟩
    rcases eq_nil_or_singleton hlen1 with hnil | ⟨e, he⟩
    · have hfind : s.timers.find? (fun e => e.fid == fid
          && e.voteKey == getVoteKey address network) = none :=
        find?_none_of_entries_nil s.timers fid (getVoteKey address network) hnil
      unfold liveEntriesFor entriesFor
      simp only [hfind]
      unfold entriesFor at hnil
      rw [hnil]
      rfl
    · have hfind : s.timers.find? (fun e => e.fid == fid
          && e.voteKey == getVoteKey address network) = some e := by
        rw [find?_eq_filter_head?]
        unfold entriesFor at he
        rw [he]
        rfl
      unfold liveEntriesFor entriesFor
      simp only [hfind]
      unfold entriesFor at he
      rw [he]
      simp
  · intro s fid address network vt cde now hgt hnil
    rw [schedule_future s fid address network vt cde now hgt]
    exact ⟨rfl, entriesFor_setEntry_fresh s.timers fid (getVoteKey address network)
      s.nextId hnil⟩
  · intro store0 cancelled0 nextId0 fid address voteTime bt net now t hg hmv hexp
    have hcde : (decide (now < actualVoteTimeOf bt voteTime + 24 * 60 * 60)) = false := by
      simpa using Nat.not_lt.mpr hexp
    have hle : (actualVoteTimeOf bt voteTime + 24 * 60 * 60 ≤ now) = True :=
      eq_true hexp
    have hvn : (voteNetworkOf net == "") = false := beq_false_of_ne (voteNetworkOf_ne net)
    have hltf : (now < actualVoteTimeOf bt voteTime + 86400) = False :=
      eq_false (by omega)
    constructor
    · unfold saveUserVote
      rw [hg]
      simp only [hmv, List.filter_nil, mergeByKey_nil, List.filter_cons, hcde,
        Bool.false_eq_true, if_false, List.length_nil,
        scheduleCooldownNotification, hle, if_true,
        List.any_nil, Bool.not_false, gt_iff_lt,
        lt_self_iff_false, Bool.and_false, hvn]
      simp
    · unfold saveUserVote
      rw [hg]
      simp only [hmv, List.filter_nil, mergeByKey_nil, List.filter_cons, hcde,
        Bool.false_eq_true, if_false, List.length_nil,
        scheduleCooldownNotification, hle, if_true,
        List.any_nil, Bool.not_false, gt_iff_lt,
        lt_self_iff_false, Bool.and_false, hvn]
      simp only [rescheduleAllNotifications, List.foldl_cons, List.foldl_nil,
        reschedStep, reschedNet, hltf, if_false, hvn]
      rfl

/-- Witness for C6: an immediate fire at a concrete expired cooldown, and
`saveUserVote` firing immediately for an already-elapsed vote. -/
theorem c6_witness :
    (scheduleCooldownNotification ⟨[], [], [], 0⟩ 1 "0xAb" "base" 10 50 60).2
      = [Event.fire 1 "0xAb" "base" 50]
    ∧ Event.fire 1 "0xAb" (voteNetworkOf (some "base"))
        (actualVoteTimeOf none 5 + 24 * 60 * 60)
      ∈ (saveUserVote ⟨[⟨1, "t", "u", none, none, some []⟩], [], [], 0⟩
          1 "0xAb" 5 none (some "base") 100000).2 :=
  ⟨(c6_immediate_fire.1 ⟨[], [], [], 0⟩ 1 "0xAb" "base" 10 50 60 (by decide) (by decide)).1,
   (c6_immediate_fire.2.2 [⟨1, "t", "u", none, none, some []⟩] [] 0 1 "0xAb" 5 none
     (some "base") 100000 ⟨1, "t", "u", none, none, some []⟩ rfl (by decide) (by decide)).1⟩

/-- A number outside a list is not contained in it. -/
theorem contains_eq_false_of_not_mem {l : List Nat} {a : Nat} (h : ¬ a ∈ l) :
    l.contains a = false := by
  simp [List.contains]
  exact h

/-- C5: the registry holds at most one timer per composite key — a
scheduling call preserves the at-most-one-entry bound for every key;
scheduling twice for the same key leaves exactly one live timer, the
second one, with the first timeout cancelled; and firing a timer invokes
the callback exactly once and removes the key's entry from the
registry. -/
theorem c5_replace_semantics :
    (∀ (s : SysState) (fid : Nat) (address network : String) (vt cde now f : Nat)
      (k : String),
      (entriesFor s.timers f k).length ≤ 1 →
      (entriesFor (scheduleCooldownNotification s fid address network vt cde now).1.timers
        f k).length ≤ 1)
    ∧ (∀ (s : SysState) (fid : Nat) (address network : String)
        (vt1 vt2 cde1 cde2 now1 now2 : Nat),
      idsBelow s →
      entriesFor s.timers fid (getVoteKey address network) = [] →
      now1 < cde1 → now2 < cde2 →
      liveEntriesFor (scheduleCooldownNotification
          (scheduleCooldownNotification s fid address network vt1 cde1 now1).1
          fid address network vt2 cde2 now2).1 fid (getVoteKey address network)
        = [⟨fid, getVoteKey address network, s.nextId + 1⟩]
      ∧ s.nextId ∈ (scheduleCooldownNotification
          (scheduleCooldownNotification s fid address network vt1 cde1 now1).1
          fid address network vt2 cde2 now2).1.cancelled)
    ∧ (∀ (s : SysState) (fid : Nat) (address network : String) (cde : Nat),
      (fireTimer s fid address network cde).2 = [Event.fire fid address network cde]
      ∧ entriesFor (fireTimer s fid address network cde).1.timers fid
          (getVoteKey address network) = []) := by
  refine ⟨?_, ?_, ?_⟩
  · intro s fid address network vt cde now f k h
    by_cases hle : cde ≤ now
    · rw [schedule_immediate s fid address network vt cde now hle]
      exact h
    · rw [schedule_future s fid address network vt cde now (Nat.not_le.mp hle)]
      exact entriesFor_setEntry_len s.timers fid (getVoteKey address network) s.nextId f k h
  · intro s fid address network vt1 vt2 cde1 cde2 now1 now2 hids hnil h1 h2
    have hfind1 := find?_none_of_entries_nil s.timers fid (getVoteKey address network) hnil
    have hany1 := any_false_of_entries_nil s.timers fid (getVoteKey address network) hnil
    have hpred : ∀ e ∈ s.timers,
        (e.fid == fid && e.voteKey == getVoteKey address network) = false := by
      intro e he
      have := List.any_eq_false.mp hany1 e he
      simpa using this
    have hpe1 : ((⟨fid, getVoteKey address network, s.nextId⟩ : TimerEntry).fid == fid
        && (⟨fid, getVoteKey address network, s.nextId⟩ : TimerEntry).voteKey
          == getVoteKey address network) = true := by simp
    have hset1 : setEntry s.timers fid (getVoteKey address network) s.nextId
        = s.timers ++ [⟨fid, getVoteKey address network, s.nextId⟩] := by
      unfold setEntry
      rw [if_neg (by rw [hany1]; simp)]
    rw [schedule_future s fid address network vt1 cde1 now1 h1]
    simp only [hfind1, hset1]
    rw [schedule_future _ fid address network vt2 cde2 now2 h2]
    have hfind2 : (s.timers
          ++ [(⟨fid, getVoteKey address network, s.nextId⟩ : TimerEntry)]).find?
        (fun e => e.fid == fid && e.voteKey == getVoteKey address network)
        = some ⟨fid, getVoteKey address network, s.nextId⟩ :=
      find?_append_single_true _ _ _ hfind1 hpe1
    simp only [hfind2]
    have hset2 : setEntry (s.timers ++ [⟨fid, getVoteKey address network, s.nextId⟩])
        fid (getVoteKey address network) (s.nextId + 1)
        = s.timers ++ [⟨fid, getVoteKey address network, s.nextId + 1⟩] := by
      unfold setEntry
      rw [if_pos (List.any_eq_true.mpr ⟨(⟨fid, getVoteKey address network, s.nextId⟩
        : TimerEntry), List.mem_append.mpr (Or.inr (List.mem_singleton.mpr rfl)), hpe1⟩)]
      rw [List.map_append]
      congr 1
      · rw [List.map_congr_left (fun a ha => by rw [if_neg (by simp [hpred a ha])])]
        exact List.map_id _
      · simp [hpe1]
    simp only [hset2]
    constructor
    · unfold liveEntriesFor entriesFor
      simp only [List.filter_append]
      unfold entriesFor at hnil
      rw [hnil]
      have hcont : ((s.nextId :: s.cancelled).contains (s.nextId + 1)) = false := by
        apply contains_eq_false_of_not_mem
        intro hmem
        rcases List.mem_cons.mp hmem with heq | hin
        · omega
        · have := hids.1 _ hin
          omega
      simp [hcont]
      intro hmem
      have := hids.1 _ hmem
      omega
    · exact List.mem_cons_self _ _
  · intro s fid address network cde
    refine ⟨rfl, ?_⟩
    unfold fireTimer entriesFor
    simp only
    exact filter_neg_filter _ s.timers

/-- Witness for C5: scheduling twice for one key from an empty registry
leaves exactly the second timer live, with the first cancelled. -/
theorem c5_witness :
    liveEntriesFor (scheduleCooldownNotification
        (scheduleCooldownNotification ⟨[], [], [], 0⟩ 1 "0xAb" "base" 10 50 40).1
        1 "0xAb" "base" 12 60 40).1 1 (getVoteKey "0xAb" "base")
      = [⟨1, getVoteKey "0xAb" "base", 0 + 1⟩] :=
  ((c5_replace_semantics.2.1 ⟨[], [], [], 0⟩ 1 "0xAb" "base" 10 12 50 60 40 40
    (by constructor <;> intro x hx <;> simp at hx) (by decide)
    (by decide) (by decide))).1

end MonFar
